import Mathlib

/-!
Verification of the keyframe extractor
(`pkg/util/tvideo/scripts/keyframe_extractor_core_base.py`).

The Python module drives OpenCV through a small set of primitives (frame
reads, gray conversion, scoring kernels).  We embed the module's own control
flow exactly, and treat the OpenCV/NumPy primitives the code calls as oracle
fields of an environment record: a frame is an opaque token (`Nat`), and the
environment decides what each primitive returns on each token.  All numeric
state the Python code keeps in floats is represented exactly in `ℚ`.

Claims about the smart loop are proved for *every* environment, i.e. for
every possible behaviour of the video file and of the pixel-level kernels.
-/

namespace KeyframeExtractor

/-- Python `int(q)` on a float: truncation toward zero. -/
def pyInt (q : ℚ) : ℤ := if 0 ≤ q then ⌊q⌋ else ⌈q⌉

/-- Python `round(q)` on a float: round half to even (banker's rounding). -/
def pyRound (q : ℚ) : ℤ :=
  if q - ⌊q⌋ < 1/2 then ⌊q⌋
  else if q - ⌊q⌋ > 1/2 then ⌊q⌋ + 1
  else if Even ⌊q⌋ then ⌊q⌋ else ⌊q⌋ + 1

/-- Environment of one extraction call.  `Frame` and `Gray` buffers are opaque
tokens (`ℕ`); each field models one external primitive exactly as the Python
code consumes it:

* `isOpened` — `cap.isOpened()`;
* `total_frames`, `fps` — `CAP_PROP_FRAME_COUNT` / `CAP_PROP_FPS`;
* `readFrame i` — `cap.set(CAP_PROP_POS_FRAMES, i)` followed by `cap.read()`
  (`none` when `ret` is false);
* `isDark f` — `_is_dark_frame(frame)` (a total `bool` in the source:
  its internal `try/except` returns `False` on error);
* `score f prev` — `_calculate_comprehensive_score(frame, prev)` as the
  triple `(total_score, quality_score, change_score)` (total in the source:
  every kernel it calls has its own error fallback);
* `grayOf f` — `cv2.cvtColor(f, COLOR_BGR2GRAY)`, which may raise;
* `simRaw g1 g2` — the similarity scalar
  `0.5*hist_similarity + 0.5*template_similarity` computed inside
  `_check_frame_similarity`, which may raise. -/
structure SmartEnv where
  isOpened : Bool
  total_frames : ℕ
  fps : ℚ
  readFrame : ℤ → Option ℕ
  isDark : ℕ → Bool
  score : ℕ → Option ℕ → ℚ × ℚ × ℚ
  grayOf : ℕ → Except Unit ℕ
  simRaw : ℕ → ℕ → Except Unit ℚ

/-- `duration = total_frames / fps if fps > 0 else 0`
(line 276 of the source, entry of `_extract_content_driven_keyframes`). -/
def envDuration (env : SmartEnv) : ℚ :=
  if env.fps > 0 then (env.total_frames : ℚ) / env.fps else 0

/-- The mutable state of `_extract_content_driven_keyframes`.  A saved
keyframe is recorded as the pair `(timestamp, frame)`; in the source the
timestamp is embedded in the written file's name and the frame is the written
image.  `active_second` is meaningful only when `has_active_second` is true,
mirroring the pair of Python locals. -/
structure SmartState where
  saved : List (ℚ × ℕ)
  last_saved_frame : Option ℕ
  last_saved_timestamp : ℚ
  current_time : ℚ
  adaptive_step : ℚ
  skipped_dark : ℕ
  last_report_time : ℚ
  active_second : ℤ
  has_active_second : Bool
  best_frame : Option ℕ
  best_timestamp : Option ℚ
  best_score : ℚ
  best_quality : ℚ
  best_change : ℚ
  deriving DecidableEq, Repr

/-- Initial state of the smart loop (source lines 292-308). -/
def initState : SmartState :=
  { saved := [], last_saved_frame := none, last_saved_timestamp := -1,
    current_time := 0, adaptive_step := 1/2, skipped_dark := 0,
    last_report_time := 0, active_second := 0, has_active_second := false,
    best_frame := none, best_timestamp := none, best_score := -1,
    best_quality := 0, best_change := 0 }

/-- `_check_frame_similarity(frame1_gray, frame2_gray, threshold)`:
computes the similarity scalar and compares it with the threshold; its
`except` branch returns `False` (source lines 243-254). -/
def checkFrameSimilarity (env : SmartEnv) (g1 g2 : ℕ) (threshold : ℚ) : Bool :=
  match env.simRaw g1 g2 with
  | .ok s => decide (s > threshold)
  | .error _ => false

/-- The commit-time duplicate filter (source lines 316-323): convert both
frames to gray and test `_check_frame_similarity(last_gray, current_gray,
threshold=0.8)`.  If the conversion raises, the exception is swallowed
(`except: pass`) and the commit proceeds, so an error means "not blocked". -/
def commitBlocked (env : SmartEnv) (s : SmartState) (bf : ℕ) : Bool :=
  match s.last_saved_frame with
  | none => false
  | some lf =>
    match env.grayOf bf, env.grayOf lf with
    | .ok current_gray, .ok last_gray =>
        checkFrameSimilarity env last_gray current_gray (4/5)
    | _, _ => false

/-- `commit_best_of_second` (source lines 309-367).  When the similarity
filter fires, the function returns *before* resetting the candidate buffer,
so the entire state is left unchanged.  On a successful commit the candidate
is appended, `last_saved_*` updated, the adaptive step stepped
(`MIN_INTERVAL` on a strong change, else `min(MAX_INTERVAL, step*1.5)`),
and the candidate buffer reset. -/
def commitBestOfSecond (env : SmartEnv) (s : SmartState) : SmartState :=
  match s.best_frame, s.best_timestamp with
  | some bf, some bts =>
    if commitBlocked env s bf then s
    else
      { s with
        saved := s.saved ++ [(bts, bf)],
        last_saved_frame := some bf,
        last_saved_timestamp := bts,
        adaptive_step :=
          if s.best_change > 35 then 1/2 else min 3 (s.adaptive_step * (3/2)),
        best_frame := none, best_timestamp := none, best_score := -1,
        best_quality := 0, best_change := 0 }
  | _, _ => s

/-- Progress-report block at the top of the loop body (source lines 369-374):
only `last_report_time` changes. -/
def reportTick (s : SmartState) : SmartState :=
  if s.current_time - s.last_report_time ≥ 10 then
    { s with last_report_time := s.current_time }
  else s

/-- Active-second bookkeeping (source lines 375-382): on the first iteration
adopt `cur_sec`; on a rollover commit the pending best (when below the frame
budget) and adopt the new second. -/
def advanceSecond (env : SmartEnv) (max_frames : ℕ) (s : SmartState) : SmartState :=
  let cur_sec : ℤ := pyInt s.current_time
  if ¬ s.has_active_second then
    { s with active_second := cur_sec, has_active_second := true }
  else if cur_sec ≠ s.active_second then
    let s' := if s.saved.length < max_frames then commitBestOfSecond env s else s
    { s' with active_second := cur_sec }
  else s

/-- Frame sampling part of the loop body (source lines 383-406): seek+read,
dark-frame skip, best-of-second candidate update, adaptive-step update
(`MIN_INTERVAL` on a strong change, else `min(MAX_INTERVAL, step*1.2)`),
and the time advance `current_time += adaptive_step`. -/
def sampleStep (env : SmartEnv) (s : SmartState) : SmartState :=
  let frame_idx : ℤ := pyInt (s.current_time * env.fps)
  match env.readFrame frame_idx with
  | none => { s with current_time := s.current_time + s.adaptive_step }
  | some frame =>
    if env.isDark frame then
      { s with skipped_dark := s.skipped_dark + 1,
               current_time := s.current_time + s.adaptive_step }
    else
      let sc := env.score frame s.last_saved_frame
      let s1 :=
        if sc.1 > s.best_score then
          { s with best_frame := some frame, best_timestamp := some s.current_time,
                   best_score := sc.1, best_quality := sc.2.1, best_change := sc.2.2 }
        else s
      let s2 :=
        if sc.2.2 > 35 then { s1 with adaptive_step := 1/2 }
        else { s1 with adaptive_step := min 3 (s1.adaptive_step * (6/5)) }
      { s2 with current_time := s2.current_time + s2.adaptive_step }

/-- One full iteration of the `while` loop of
`_extract_content_driven_keyframes` (source lines 368-406). -/
def loopBody (env : SmartEnv) (max_frames : ℕ) (s : SmartState) : SmartState :=
  sampleStep env (advanceSecond env max_frames (reportTick s))

/-- The `while current_time < duration and len(keyframe_paths) < max_frames`
loop, run with explicit fuel.  Every claim below is proved for all fuels, so
in particular for any fuel large enough for the loop condition to fail. -/
def runSmart (env : SmartEnv) (max_frames : ℕ) : ℕ → SmartState → SmartState
  | 0, s => s
  | fuel + 1, s =>
    if s.current_time < envDuration env ∧ s.saved.length < max_frames then
      runSmart env max_frames fuel (loopBody env max_frames s)
    else s

/-- `_extract_content_driven_keyframes` (source lines 273-410): run the loop
from the initial state, then attempt one final commit when below the frame
budget, and return the saved list.  `_extract_smart_keyframes` (lines
413-433) only adds logging around this call, so the smart mode's result is
exactly this list. -/
def contentDrivenExtract (env : SmartEnv) (max_frames fuel : ℕ) : List (ℚ × ℕ) :=
  let s := runSmart env max_frames fuel initState
  (if s.saved.length < max_frames then commitBestOfSecond env s else s).saved

/-- `_extract_uniform_keyframes` loop (source lines 441-462), as called from
`extract_keyframes` (`include_cover=True`, `start_index=0`, fresh filename
set).  `rem` counts the remaining iterations of `range(max_frames)`, `i` the
current index.  A saved frame is recorded as `(timestamp, frame)` with
`timestamp = frame_idx / fps`. -/
def uniformGo (env : SmartEnv) (total_frames interval : ℕ) :
    ℕ → ℕ → List (ℚ × ℕ)
  | 0, _ => []
  | rem + 1, i =>
    let frame_idx := i * interval
    if frame_idx ≥ total_frames then []
    else
      match env.readFrame (frame_idx : ℤ) with
      | some f => ((frame_idx : ℚ) / env.fps, f) :: uniformGo env total_frames interval rem (i + 1)
      | none => uniformGo env total_frames interval rem (i + 1)

/-- `_extract_interval_keyframes` (source lines 466-483): read every
`interval`-th frame until a read fails or `max_frames` frames are saved.
The budget argument is `max_frames - saved_count`. -/
def intervalGo (env : SmartEnv) (interval : ℕ) : ℕ → ℕ → List (ℚ × ℕ)
  | 0, _ => []
  | budget + 1, frame_idx =>
    match env.readFrame (frame_idx : ℤ) with
    | none => []
    | some f => ((frame_idx : ℚ) / env.fps, f) :: intervalGo env interval budget (frame_idx + interval)

/-- Sorted deduplication, Python's `sorted(set(xs))`. -/
def sortedDedup (l : List ℤ) : List ℤ := List.insertionSort (· ≤ ·) l.dedup

/-- The anchor indices appended unconditionally by `_extract_minimal_keyframes`
(source lines 70-75): `0` when `max_frames ≥ 1`, `total_frames - 1` when
`≥ 2`, `total_frames // 2` when `≥ 3`. -/
def minimalBase (total_frames max_frames : ℕ) : List ℤ :=
  (if 1 ≤ max_frames then [(0 : ℤ)] else []) ++
  (if 2 ≤ max_frames then [(total_frames : ℤ) - 1] else []) ++
  (if 3 ≤ max_frames then [((total_frames / 2 : ℕ) : ℤ)] else [])

/-- The raw index list built by `_extract_minimal_keyframes` before
`sorted(set(...))` (source lines 69-81): the anchors, then for
`max_frames > 3` the loop `for i in range(1, max_frames - 2)` appending
`i * (total_frames // max_frames)` when not already present and below
`total_frames`. -/
def minimalRaw (total_frames max_frames : ℕ) : List ℤ :=
  if 3 < max_frames then
    (List.range (max_frames - 3)).foldl
      (fun l i =>
        let idx : ℤ := (((i + 1) * (total_frames / max_frames) : ℕ) : ℤ)
        if idx ∉ l ∧ idx < (total_frames : ℤ) then l ++ [idx] else l)
      (minimalBase total_frames max_frames)
  else minimalBase total_frames max_frames

/-- `frame_indices = sorted(set(frame_indices))[:max_frames]`
(source line 82). -/
def minimalIndices (total_frames max_frames : ℕ) : List ℤ :=
  (sortedDedup (minimalRaw total_frames max_frames)).take max_frames

/-- The anchor set exactly as the specification words it (spec §4.4,
"Minimal (last-resort)"): all anchors and all stride multiples
`i * (total_frames // max_frames)` for `i ∈ range(1, max_frames - 2)`,
without the in-loop membership and `idx < total_frames` filters; then
deduplicate, sort, truncate. -/
def specMinimalIndices (total_frames max_frames : ℕ) : List ℤ :=
  (sortedDedup
    (minimalBase total_frames max_frames ++
      (if 3 < max_frames then
        (List.range (max_frames - 3)).map
          (fun i => (((i + 1) * (total_frames / max_frames) : ℕ) : ℤ))
      else []))).take max_frames

/-- `_extract_minimal_keyframes` (source lines 60-98): its own capture-open
guard returns `[]`, otherwise it reads each selected index and records
`(timestamp, frame)` with `timestamp = frame_idx / fps if fps > 0 else
frame_idx`. -/
def minimalExtract (env : SmartEnv) (max_frames : ℕ) : List (ℚ × ℕ) :=
  if env.isOpened = false then []
  else
    (minimalIndices env.total_frames max_frames).foldr
      (fun idx acc =>
        match env.readFrame idx with
        | some f =>
            ((if env.fps > 0 then (idx : ℚ) / env.fps else (idx : ℚ)), f) :: acc
        | none => acc) []

/-- Extraction method selector: `extract_keyframes` dispatches on the string
`method`; any string other than `smart` / `uniform` takes the interval
branch. -/
inductive Method where
  | smart
  | uniform
  | interval
  deriving DecidableEq, Repr

/-- Python exceptions that can leave the `try` body of `extract_keyframes`. -/
inductive PyExn where
  | videoOpenFailed
  | zeroDivision
  deriving DecidableEq, Repr

/-- The `try` body of `extract_keyframes` (source lines 103-149), with the
exceptions it can raise made explicit: the explicit
`raise Exception("无法打开视频文件")` when the capture does not open, and the
`ZeroDivisionError` of `duration = total_frames / fps` when `fps == 0`.
After those two points the dispatch runs the selected extractor; in the
interval branch `seconds_interval` and `interval_frames` are computed as in
source lines 128-143. -/
def extractKeyframesTry (env : SmartEnv) (max_frames : ℕ) (m : Method)
    (time_interval : Option ℚ) (fuel : ℕ) : Except PyExn (List (ℚ × ℕ)) :=
  if env.isOpened = false then .error .videoOpenFailed
  else if env.fps = 0 then .error .zeroDivision
  else
    let duration : ℚ := (env.total_frames : ℚ) / env.fps
    match m with
    | .smart => .ok (contentDrivenExtract env max_frames fuel)
    | .uniform =>
      -- `interval = max(1, total_frames // max_frames)` raises
      -- `ZeroDivisionError` when `max_frames = 0`.
      if max_frames = 0 then .error .zeroDivision
      else .ok (uniformGo env env.total_frames
        (max 1 (env.total_frames / max_frames)) max_frames 0)
    | .interval =>
      let seconds_interval : ℚ :=
        if duration > 300 then
          match time_interval with
          | some t => max t (duration / 300)
          | none => duration / 300
        else
          match time_interval with
          | some t => t
          | none => if 0 < max_frames then duration / (max_frames : ℚ) else 1
      let interval_frames : ℕ :=
        if env.fps > 0 then (max 1 (pyRound (seconds_interval * env.fps))).toNat
        else if 0 < max_frames then max 1 (env.total_frames / max_frames) else 1
      .ok (intervalGo env interval_frames max_frames 0)

/-- `extract_keyframes` (source lines 101-152): the whole body sits inside
`try: ... except Exception: return []`, so every failure of the `try` body is
absorbed into an empty result and the function itself never raises. -/
def extract_keyframes (env : SmartEnv) (max_frames : ℕ) (m : Method)
    (time_interval : Option ℚ) (fuel : ℕ) : List (ℚ × ℕ) :=
  match extractKeyframesTry env max_frames m time_interval fuel with
  | .ok l => l
  | .error _ => []

/-- `extract_keyframes` viewed as a possibly-raising callee.  Because its
internal handler returns `[]` on every exception (and the
`@_monitor_performance` decorator only re-raises what escapes), no exception
ever escapes it: as an `Except` computation it is always `.ok`. -/
def extractKeyframesExc (env : SmartEnv) (max_frames : ℕ) (m : Method)
    (time_interval : Option ℚ) (fuel : ℕ) : Except PyExn (List (ℚ × ℕ)) :=
  .ok (extract_keyframes env max_frames m time_interval fuel)

/-- `extract_keyframes_with_fallback` (source lines 48-57): try `smart`; on
an exception retry with `interval`; on a further exception run
`_extract_minimal_keyframes`. -/
def extract_keyframes_with_fallback (env : SmartEnv) (max_frames : ℕ)
    (time_interval : Option ℚ) (fuel : ℕ) : List (ℚ × ℕ) :=
  match extractKeyframesExc env max_frames .smart time_interval fuel with
  | .ok l => l
  | .error _ =>
    match extractKeyframesExc env max_frames .interval time_interval fuel with
    | .ok l => l
    | .error _ => minimalExtract env max_frames

/-! ### Claim C6: `_is_dark_frame` (source lines 224-240)

A gray image is a flat list of 8-bit luma values (`Fin 256`), the result of
`cv2.cvtColor(frame, COLOR_BGR2GRAY)`.  `np.mean`, `np.sum(gray < t)`,
`np.std` and the normalized 256-bin histogram are computed exactly over `ℚ`.
`np.std(gray) < 10` is embedded as `variance < 100`: both sides are
nonnegative, so `sqrt(var) < 10 ↔ var < 100` exactly.  The entropy
`-Σ p*log2(p + 1e-7)` is transcendental and lives in `ℝ` via `Real.logb`.
`hist / hist.sum()` equals count/size because every 8-bit pixel falls in
exactly one of the 256 bins. -/

def grayMean (g : List (Fin 256)) : ℚ :=
  (g.map (fun v => (v.1 : ℚ))).sum / g.length

def darkRatio (g : List (Fin 256)) (threshold : ℚ) : ℚ :=
  ((g.filter (fun v => decide ((v.1 : ℚ) < threshold))).length : ℚ) / g.length

def grayVar (g : List (Fin 256)) : ℚ :=
  (g.map (fun v => ((v.1 : ℚ) - grayMean g) ^ 2)).sum / g.length

def histP (g : List (Fin 256)) (b : Fin 256) : ℚ :=
  ((g.filter (fun v => decide (v = b))).length : ℚ) / g.length

noncomputable def grayEntropy (g : List (Fin 256)) : ℝ :=
  -(∑ b : Fin 256, (histP g b : ℝ) * Real.logb 2 ((histP g b : ℝ) + 1/10^7))

/-- The decision of `_is_dark_frame` on a successfully converted gray image
(source lines 233-237): mean below threshold, or dark-pixel ratio above
0.95, or low deviation (`std < 10`, i.e. `var < 100`) together with low
histogram entropy. -/
def isDarkProp (g : List (Fin 256)) (threshold : ℚ) : Prop :=
  grayMean g < threshold ∨ darkRatio g threshold > 95/100 ∨
    (grayVar g < 100 ∧ grayEntropy g < 3)

/-- `_is_dark_frame` including its `try/except` wrapper: a frame whose gray
conversion (or any numeric step) raises yields `False`. -/
def isDarkFrame (conv : Except Unit (List (Fin 256))) : Prop :=
  match conv with
  | .ok g => isDarkProp g 35
  | .error _ => False

/-- The claim's wording of the dark test, with the default threshold 35:
mean brightness < 35, or the fraction of pixels below 35 exceeds 0.95, or
(brightness standard deviation < 10 and histogram entropy < 3.0). -/
def specIsDarkFormula (g : List (Fin 256)) : Prop :=
  grayMean g < 35 ∨ darkRatio g 35 > 95/100 ∨
    (grayVar g < 100 ∧ grayEntropy g < 3)

/-- A 2×2 all-black frame after gray conversion. -/
def blackGray : List (Fin 256) := [0, 0, 0, 0]

/-- A 2×2 uniform mid-gray (luma 128) frame after gray conversion. -/
def midGray : List (Fin 256) := [128, 128, 128, 128]

theorem histP_midGray_self : histP midGray 128 = 1 := by
  norm_num [histP, midGray]

theorem histP_midGray_other (b : Fin 256) (hb : b ≠ 128) : histP midGray b = 0 := by
  have h1 : ((128 : Fin 256) = b) = False := by
    simp [Ne.symm hb]
  simp [histP, midGray, h1]

theorem grayEntropy_midGray_neg : grayEntropy midGray < 3 := by
  unfold grayEntropy
  have hsum : (∑ b : Fin 256, (histP midGray b : ℝ)
      * Real.logb 2 ((histP midGray b : ℝ) + 1/10^7))
      = Real.logb 2 (1 + 1/10^7) := by
    rw [Finset.sum_eq_single (128 : Fin 256)]
    · rw [histP_midGray_self]
      norm_num
    · intro b _ hb
      rw [histP_midGray_other b hb]
      norm_num
    · intro habs
      exact absurd (Finset.mem_univ _) habs
  rw [hsum]
  have hpos : 0 ≤ Real.logb 2 (1 + 1/10^7) :=
    Real.logb_nonneg (by norm_num) (by norm_num)
  linarith

theorem midGray_dark : isDarkProp midGray 35 := by
  refine Or.inr (Or.inr ⟨?_, grayEntropy_midGray_neg⟩)
  have hv : (128 : Fin 256).1 = 128 := rfl
  norm_num [grayVar, grayMean, midGray, hv]

/-- C6 (counterexample to the claim as stated): the uniform mid-gray frame
is classified as dark.  Its brightness deviation is 0 and its histogram is
concentrated in one bin, so the entropy is `-log2(1 + 1e-7) < 0 < 3`: the
low-variation clause fires for *any* uniform frame, whatever its level. -/
theorem c6_counterexample : isDarkFrame (.ok midGray) := midGray_dark

/-- C6 (amended): `_is_dark_frame` returns true on an all-black frame, but
*also* on a uniform mid-gray frame (the `std < 10 ∧ entropy < 3` clause
fires on any uniform frame); on every well-formed (non-empty) gray image it
decides exactly `mean < 35 ∨ dark_ratio > 0.95 ∨ (std < 10 ∧ entropy < 3)`;
and on an internal error it returns false. -/
theorem c6_is_dark_amended :
    isDarkFrame (.ok blackGray) ∧ isDarkFrame (.ok midGray) ∧
      (∀ g : List (Fin 256), g ≠ [] →
        (isDarkFrame (.ok g) ↔ specIsDarkFormula g)) ∧
      ∀ e : Unit, ¬ isDarkFrame (.error e) := by
  refine ⟨?_, midGray_dark, fun g _ => Iff.rfl, fun e h => h⟩
  show isDarkProp blackGray 35
  exact Or.inl (by norm_num [grayMean, blackGray])

theorem c6_is_dark_amended_witness :
    isDarkFrame (.ok blackGray) ↔ specIsDarkFormula blackGray :=
  c6_is_dark_amended.2.2.1 blackGray (by simp [blackGray])

/-! ### Claim C7: `_calculate_scene_change_score` (source lines 155-187)

The pixel-level primitives the function calls — `cvtColor`, `GaussianBlur`,
`Canny`, `calcHist`, `compareHist(HISTCMP_CORREL)` — are OpenCV library
routines, modelled as fields of a backend record over abstract pixel grids
`Fin n → ℚ` (gray planes) and histograms `Fin m → ℚ`.  The function's own
arithmetic — the SSIM map with `c1 = (0.01·255)²`, `c2 = (0.03·255)²`, the
four sub-scores, the `0.3/0.3/0.3/0.1` weights and the final clamp — is
embedded exactly.  Only the non-fallback (`try`) path is modelled, as the
claim requires. -/

structure CVBackend (Frame : Type) (n m : ℕ) where
  toGray : Frame → Fin n → ℚ
  gaussianBlur : (Fin n → ℚ) → Fin n → ℚ
  canny : (Fin n → ℚ) → Fin n → ℚ
  hist3d : Frame → Fin m → ℚ
  histCorrel : (Fin m → ℚ) → (Fin m → ℚ) → ℚ

def meanPix {n : ℕ} (v : Fin n → ℚ) : ℚ := (∑ i, v i) / n

def ssimC1 : ℚ := (51/20) ^ 2

def ssimC2 : ℚ := (153/20) ^ 2

/-- The SSIM map of source lines 163-172, pointwise. -/
def ssimMap {F : Type} {n m : ℕ} (P : CVBackend F n m)
    (g1 g2 : Fin n → ℚ) : Fin n → ℚ := fun p =>
  let mu1 := P.gaussianBlur g1 p
  let mu2 := P.gaussianBlur g2 p
  let sigma1_sq := P.gaussianBlur (fun q => g1 q * g1 q) p - mu1 * mu1
  let sigma2_sq := P.gaussianBlur (fun q => g2 q * g2 q) p - mu2 * mu2
  let sigma12 := P.gaussianBlur (fun q => g1 q * g2 q) p - mu1 * mu2
  ((2 * (mu1 * mu2) + ssimC1) * (2 * sigma12 + ssimC2)) /
    ((mu1 * mu1 + mu2 * mu2 + ssimC1) * (sigma1_sq + sigma2_sq + ssimC2))

/-- `_calculate_scene_change_score`, non-fallback path (source lines
156-187): histogram, SSIM, edge and motion sub-scores combined with the
`SMART_EXTRACTION_CONFIG` weights and clamped to `[0, 100]`. -/
def calculateSceneChangeScore {F : Type} {n m : ℕ} (P : CVBackend F n m)
    (f1 f2 : F) : ℚ :=
  let g1 := P.toGray f1
  let g2 := P.toGray f2
  let hist_score := (1 - max 0 (P.histCorrel (P.hist3d f1) (P.hist3d f2))) * 100
  let ssim_score := (1 - meanPix (ssimMap P g1 g2)) * 100
  let edge_change_score := meanPix (fun p => |P.canny g1 p - P.canny g2 p|) * 2
  let motion_score := meanPix (fun p => |g1 p - g2 p|)
  min 100 (max 0 ((3/10) * hist_score + (3/10) * ssim_score +
    (3/10) * edge_change_score + (1/10) * motion_score))

/-- C7: on a well-formed frame (non-empty pixel grid, a histogram correlator
that is 1 on identical histograms — the Pearson property of
`HISTCMP_CORREL` — and nondegenerate SSIM denominators), the score of a
frame against itself is exactly 0; and for every pair of frames the
non-fallback score is clamped to `[0, 100]`. -/
theorem c7_scene_change_score (F : Type) (n m : ℕ) (P : CVBackend F n m)
    (f : F) (hn : 0 < n)
    (hcorr : P.histCorrel (P.hist3d f) (P.hist3d f) = 1)
    (hden : ∀ p : Fin n,
      (P.gaussianBlur (P.toGray f) p * P.gaussianBlur (P.toGray f) p +
        P.gaussianBlur (P.toGray f) p * P.gaussianBlur (P.toGray f) p + ssimC1) *
      ((P.gaussianBlur (fun q => P.toGray f q * P.toGray f q) p -
          P.gaussianBlur (P.toGray f) p * P.gaussianBlur (P.toGray f) p) +
        (P.gaussianBlur (fun q => P.toGray f q * P.toGray f q) p -
          P.gaussianBlur (P.toGray f) p * P.gaussianBlur (P.toGray f) p) +
        ssimC2) ≠ 0) :
    calculateSceneChangeScore P f f = 0 ∧
      ∀ f1 f2 : F, 0 ≤ calculateSceneChangeScore P f1 f2 ∧
        calculateSceneChangeScore P f1 f2 ≤ 100 := by
  constructor
  · have hg : ∀ p : Fin n, ssimMap P (P.toGray f) (P.toGray f) p = 1 := by
      intro p
      unfold ssimMap
      dsimp only
      rw [show (2 * (P.gaussianBlur (P.toGray f) p * P.gaussianBlur (P.toGray f) p)
            + ssimC1) *
          (2 * (P.gaussianBlur (fun q => P.toGray f q * P.toGray f q) p -
            P.gaussianBlur (P.toGray f) p * P.gaussianBlur (P.toGray f) p) + ssimC2)
          = (P.gaussianBlur (P.toGray f) p * P.gaussianBlur (P.toGray f) p +
            P.gaussianBlur (P.toGray f) p * P.gaussianBlur (P.toGray f) p + ssimC1) *
          ((P.gaussianBlur (fun q => P.toGray f q * P.toGray f q) p -
              P.gaussianBlur (P.toGray f) p * P.gaussianBlur (P.toGray f) p) +
            (P.gaussianBlur (fun q => P.toGray f q * P.toGray f q) p -
              P.gaussianBlur (P.toGray f) p * P.gaussianBlur (P.toGray f) p) +
            ssimC2) from by ring]
      exact div_self (hden p)
    have hmean : meanPix (ssimMap P (P.toGray f) (P.toGray f)) = 1 := by
      unfold meanPix
      rw [Finset.sum_congr rfl (fun p _ => hg p)]
      rw [Finset.sum_const, Finset.card_univ, Fintype.card_fin, nsmul_eq_mul,
        mul_one]
      exact div_self (Nat.cast_ne_zero.2 hn.ne')
    have hzero : ∀ v : Fin n → ℚ, meanPix (fun p => |v p - v p|) = 0 := by
      intro v
      unfold meanPix
      simp
    unfold calculateSceneChangeScore
    dsimp only
    rw [hcorr, hmean, hzero, hzero]
    norm_num
  · intro f1 f2
    unfold calculateSceneChangeScore
    dsimp only
    exact ⟨le_min (by norm_num) (le_max_left _ _), min_le_left _ _⟩

/-- A one-pixel backend over a single black frame: identity blur and Canny,
zero histogram, Pearson correlator constantly 1. -/
def c7Backend : CVBackend Unit 1 1 :=
  { toGray := fun _ _ => 0, gaussianBlur := fun v => v, canny := fun v => v,
    hist3d := fun _ _ => 0, histCorrel := fun _ _ => 1 }

theorem c7_scene_change_score_witness :
    calculateSceneChangeScore c7Backend () () = 0 ∧
      0 ≤ calculateSceneChangeScore c7Backend () () ∧
      calculateSceneChangeScore c7Backend () () ≤ 100 := by
  obtain ⟨h1, h2⟩ := c7_scene_change_score Unit 1 1 c7Backend () one_pos rfl
    (by
      intro p
      norm_num [c7Backend, ssimC1, ssimC2])
  exact ⟨h1, h2 () ()⟩

/-! ### Helper lemmas about `sortedDedup` -/

theorem mem_sortedDedup {l : List ℤ} {x : ℤ} : x ∈ sortedDedup l ↔ x ∈ l := by
  unfold sortedDedup
  rw [(List.perm_insertionSort (· ≤ ·) l.dedup).mem_iff, List.mem_dedup]

theorem sortedDedup_congr {a b : List ℤ} (h : ∀ x, x ∈ a ↔ x ∈ b) :
    sortedDedup a = sortedDedup b := by
  have hperm : List.Perm (sortedDedup a) (sortedDedup b) := by
    refine ((List.perm_insertionSort (· ≤ ·) a.dedup).trans ?_).trans
      (List.perm_insertionSort (· ≤ ·) b.dedup).symm
    exact (List.perm_ext_iff_of_nodup (List.nodup_dedup a) (List.nodup_dedup b)).2
      (by simpa [List.mem_dedup] using h)
  exact List.eq_of_perm_of_sorted hperm
    (List.sorted_insertionSort (· ≤ ·) a.dedup)
    (List.sorted_insertionSort (· ≤ ·) b.dedup)

/-- Membership of the dedup-filtered append fold used by
`_extract_minimal_keyframes`: the in-loop `idx not in frame_indices` test
never changes the member set, only multiplicity. -/
theorem mem_minimal_foldl (g : ℕ → ℤ) (P : ℕ → Prop) [DecidablePred P]
    (is : List ℕ) (acc : List ℤ) (x : ℤ) :
    (x ∈ is.foldl (fun l i => if g i ∉ l ∧ P i then l ++ [g i] else l) acc) ↔
      x ∈ acc ∨ ∃ i ∈ is, x = g i ∧ P i := by
  induction is generalizing acc with
  | nil => simp
  | cons j js ih =>
    simp only [List.foldl_cons, ih, List.mem_cons]
    constructor
    · rintro (hx | ⟨i, hi, rfl, hP⟩)
      · by_cases hc : g j ∉ acc ∧ P j
        · rw [if_pos hc] at hx
          rcases List.mem_append.1 hx with hx | hx
          · exact Or.inl hx
          · exact Or.inr ⟨j, Or.inl rfl, (List.mem_singleton.1 hx), hc.2⟩
        · rw [if_neg hc] at hx
          exact Or.inl hx
      · exact Or.inr ⟨i, Or.inr hi, rfl, hP⟩
    · rintro (hx | ⟨i, hi | hi, rfl, hP⟩)
      · split
        · exact Or.inl (List.mem_append.2 (Or.inl hx))
        · exact Or.inl hx
      · subst hi
        by_cases hc : g i ∉ acc
        · rw [if_pos ⟨hc, hP⟩]
          exact Or.inl (List.mem_append.2 (Or.inr (List.mem_singleton.2 rfl)))
        · split
          · exact Or.inl (List.mem_append.2 (Or.inr (List.mem_singleton.2 rfl)))
          · exact Or.inl (not_not.1 hc)
      · exact Or.inr ⟨i, hi, rfl, hP⟩

/-- For a positive frame count the stride multiples of the minimal mode are
always below `total_frames`, so the source's `idx < total_frames` test is
only ever false when `total_frames = 0`. -/
theorem minimal_stride_lt {T mf i : ℕ} (hmf : 3 < mf) (hi : i < mf - 3)
    (hT : 0 < T) : (i + 1) * (T / mf) < T := by
  rcases Nat.eq_zero_or_pos (T / mf) with h0 | hpos
  · simpa [h0] using hT
  · have hmfT : mf ≤ T := (Nat.one_le_div_iff (by omega)).1 hpos
    have h1 : (i + 1) * (T / mf) ≤ (mf - 3) * (T / mf) :=
      Nat.mul_le_mul_right _ (by omega)
    have h2 : (mf - 3) * (T / mf) < mf * (T / mf) :=
      (Nat.mul_lt_mul_right hpos).2 (by omega)
    have h3 : mf * (T / mf) ≤ T := by
      rw [Nat.mul_comm]
      exact Nat.div_mul_le_self T mf
    omega

theorem minimalRaw_mem (T mf : ℕ) (x : ℤ) :
    x ∈ minimalRaw T mf ↔
      x ∈ minimalBase T mf ++
        (if 3 < mf then
          (List.range (mf - 3)).map
            (fun i => (((i + 1) * (T / mf) : ℕ) : ℤ))
        else []) := by
  unfold minimalRaw
  by_cases hmf : 3 < mf
  · rw [if_pos hmf, if_pos hmf,
      mem_minimal_foldl (fun i => (((i + 1) * (T / mf) : ℕ) : ℤ))
        (fun i => (((i + 1) * (T / mf) : ℕ) : ℤ) < (T : ℤ))]
    simp only [List.mem_append, List.mem_map, List.mem_range]
    constructor
    · rintro (hx | ⟨i, hi, rfl, _⟩)
      · exact Or.inl hx
      · exact Or.inr ⟨i, hi, rfl⟩
    · rintro (hx | ⟨i, hi, rfl⟩)
      · exact Or.inl hx
      · rcases Nat.eq_zero_or_pos T with hT | hT
        · refine Or.inl ?_
          have hz : (((i + 1) * (T / mf) : ℕ) : ℤ) = 0 := by
            simp [hT, Nat.zero_div]
          rw [hz]
          unfold minimalBase
          simp [show 1 ≤ mf by omega]
        · exact Or.inr ⟨i, hi, rfl, by exact_mod_cast minimal_stride_lt hmf hi hT⟩
  · rw [if_neg hmf, if_neg hmf, List.append_nil]

/-- The minimal mode's selected index list agrees with the specification's
description of it (anchors plus stride multiples, deduplicated, sorted,
truncated to `max_frames`), for every `total_frames` and `max_frames`. -/
theorem minimalIndices_eq_spec (T mf : ℕ) :
    minimalIndices T mf = specMinimalIndices T mf := by
  unfold minimalIndices specMinimalIndices
  rw [sortedDedup_congr (minimalRaw_mem T mf)]

/-! ### Structure of `commit_best_of_second` -/

/-- `commit_best_of_second` either leaves the state completely unchanged
(no candidate, or the similarity filter fired — in the latter case the
early `return` skips the buffer reset as well) or performs a full commit. -/
theorem commit_eq_or (env : SmartEnv) (s : SmartState) :
    commitBestOfSecond env s = s ∨
      ∃ bf bts, s.best_frame = some bf ∧ s.best_timestamp = some bts ∧
        commitBlocked env s bf = false ∧
        commitBestOfSecond env s =
          { s with
            saved := s.saved ++ [(bts, bf)],
            last_saved_frame := some bf,
            last_saved_timestamp := bts,
            adaptive_step :=
              if s.best_change > 35 then 1/2 else min 3 (s.adaptive_step * (3/2)),
            best_frame := none, best_timestamp := none, best_score := -1,
            best_quality := 0, best_change := 0 } := by
  rcases h1 : s.best_frame with _ | bf
  · left
    simp only [commitBestOfSecond, h1]
  · rcases h2 : s.best_timestamp with _ | bts
    · left
      simp only [commitBestOfSecond, h1, h2]
    · by_cases hb : commitBlocked env s bf = true
      · left
        simp only [commitBestOfSecond, h1, h2, if_pos hb]
      · right
        refine ⟨bf, bts, rfl, rfl, by simpa using hb, ?_⟩
        simp only [commitBestOfSecond, h1, h2, if_neg hb]

/-! ### Length bounds (claim C3) -/

theorem sampleStep_saved (env : SmartEnv) (s : SmartState) :
    (sampleStep env s).saved = s.saved := by
  simp only [sampleStep]
  cases h : env.readFrame (pyInt (s.current_time * env.fps)) with
  | none => rfl
  | some frame =>
    dsimp only
    split
    · rfl
    · split <;> split <;> rfl

theorem reportTick_saved (s : SmartState) : (reportTick s).saved = s.saved := by
  unfold reportTick
  split <;> rfl

theorem commit_saved_le (env : SmartEnv) (s : SmartState) :
    (commitBestOfSecond env s).saved.length ≤ s.saved.length + 1 := by
  rcases commit_eq_or env s with h | ⟨bf, bts, _, _, _, h⟩ <;> simp [h]

theorem advanceSecond_saved_le (env : SmartEnv) (mf : ℕ) (s : SmartState)
    (h : s.saved.length ≤ mf) :
    (advanceSecond env mf s).saved.length ≤ mf := by
  unfold advanceSecond
  by_cases h1 : ¬s.has_active_second = true
  · rw [if_pos h1]
    exact h
  · rw [if_neg h1]
    by_cases h2 : pyInt s.current_time ≠ s.active_second
    · rw [if_pos h2]
      show (if s.saved.length < mf then commitBestOfSecond env s else s).saved.length ≤ mf
      by_cases h3 : s.saved.length < mf
      · rw [if_pos h3]
        exact le_trans (commit_saved_le env s) (by omega)
      · rw [if_neg h3]
        exact h
    · rw [if_neg h2]
      exact h

theorem loopBody_saved_le (env : SmartEnv) (mf : ℕ) (s : SmartState)
    (h : s.saved.length ≤ mf) :
    (loopBody env mf s).saved.length ≤ mf := by
  unfold loopBody
  rw [sampleStep_saved]
  exact advanceSecond_saved_le env mf _ (by rw [reportTick_saved]; exact h)

theorem runSmart_saved_le (env : SmartEnv) (mf fuel : ℕ) :
    ∀ s : SmartState, s.saved.length ≤ mf →
      (runSmart env mf fuel s).saved.length ≤ mf := by
  induction fuel with
  | zero => exact fun s h => h
  | succ fuel ih =>
    intro s h
    unfold runSmart
    split
    · exact ih _ (loopBody_saved_le env mf s h)
    · exact h

theorem contentDrivenExtract_length_le (env : SmartEnv) (mf fuel : ℕ) :
    (contentDrivenExtract env mf fuel).length ≤ mf := by
  have h := runSmart_saved_le env mf fuel initState (Nat.zero_le mf)
  simp only [contentDrivenExtract]
  split
  · exact le_trans (commit_saved_le env _) (by omega)
  · exact h

theorem uniformGo_length_le (env : SmartEnv) (T interval : ℕ) :
    ∀ rem i : ℕ, (uniformGo env T interval rem i).length ≤ rem := by
  intro rem
  induction rem with
  | zero => intro i; simp [uniformGo]
  | succ rem ih =>
    intro i
    simp only [uniformGo]
    split
    · simp
    · cases env.readFrame ((i * interval : ℕ) : ℤ) with
      | none => exact le_trans (ih (i + 1)) (by omega)
      | some f => simpa using ih (i + 1)

theorem intervalGo_length_le (env : SmartEnv) (interval : ℕ) :
    ∀ budget idx : ℕ, (intervalGo env interval budget idx).length ≤ budget := by
  intro budget
  induction budget with
  | zero => intro idx; simp [intervalGo]
  | succ budget ih =>
    intro idx
    unfold intervalGo
    cases env.readFrame ((idx : ℕ) : ℤ) with
    | none => simp
    | some f => simpa using ih (idx + interval)

theorem minimalExtract_length_le (env : SmartEnv) (mf : ℕ) :
    (minimalExtract env mf).length ≤ mf := by
  unfold minimalExtract
  split
  · simp
  · have hfold : ∀ l : List ℤ,
        (l.foldr (fun idx acc =>
          match env.readFrame idx with
          | some f =>
              ((if env.fps > 0 then (idx : ℚ) / env.fps else (idx : ℚ)), f) :: acc
          | none => acc) []).length ≤ l.length := by
      intro l
      induction l with
      | nil => simp
      | cons a l ih =>
        simp only [List.foldr_cons]
        cases env.readFrame a with
        | none => exact le_trans ih (by simp)
        | some f => simpa using ih
    refine le_trans (hfold _) ?_
    unfold minimalIndices
    exact le_trans (List.length_take_le _ _) (le_refl _)

/-- C3: in every mode — smart, uniform, interval (any non-smart, non-uniform
method string), and the minimal last resort — the extractor returns at most
`max_frames` keyframes; the fallback wrapper inherits the same bound. -/
theorem c3_result_length_le_max_frames (env : SmartEnv) (mf : ℕ) (m : Method)
    (ti : Option ℚ) (fuel : ℕ) :
    (extract_keyframes env mf m ti fuel).length ≤ mf ∧
      (extract_keyframes_with_fallback env mf ti fuel).length ≤ mf ∧
      (minimalExtract env mf).length ≤ mf := by
  have hmain : ∀ m' : Method, (extract_keyframes env mf m' ti fuel).length ≤ mf := by
    intro m'
    unfold extract_keyframes extractKeyframesTry
    by_cases h1 : env.isOpened = false
    · rw [if_pos h1]
      simp
    · rw [if_neg h1]
      by_cases h2 : env.fps = 0
      · rw [if_pos h2]
        simp
      · rw [if_neg h2]
        cases m' with
        | smart => exact contentDrivenExtract_length_le env mf fuel
        | uniform =>
          by_cases h3 : mf = 0
          · simp only [if_pos h3]
            simp
          · simp only [if_neg h3]
            exact uniformGo_length_le env _ _ mf 0
        | interval => exact intervalGo_length_le env _ mf 0
  exact ⟨hmain m, hmain .smart, minimalExtract_length_le env mf⟩

/-! ### Invariant of the smart loop (claims C1 and C9) -/

theorem pyInt_eq_floor {q : ℚ} (h : 0 ≤ q) : pyInt q = ⌊q⌋ := if_pos h

/-- Strict ordering of committed keyframes: strictly increasing
integer-second floors (which forces strictly increasing timestamps). -/
def commitOrder (a b : ℚ × ℕ) : Prop := ⌊a.1⌋ < ⌊b.1⌋

instance : IsTrans (ℚ × ℕ) commitOrder := ⟨fun _ _ _ h1 h2 => lt_trans h1 h2⟩

/-- Inductive invariant of `_extract_content_driven_keyframes`, maintained
by every loop iteration from the initial state:

* committed floors are strictly increasing;
* `current_time` stays nonnegative and the adaptive step stays within
  `[MIN_INTERVAL, MAX_INTERVAL] = [0.5, 3]`;
* the active second never exceeds `⌊current_time⌋`;
* the best-of-second candidate (when present) was sampled at a nonnegative
  time within the current or an earlier active second, and its second is
  strictly beyond the last commit's second unless the similarity filter
  blocks it (a blocked candidate can survive across seconds);
* the last committed second lies strictly before the active second. -/
structure SmartInv (env : SmartEnv) (s : SmartState) : Prop where
  saved_chain : List.Chain' commitOrder s.saved
  time_nonneg : 0 ≤ s.current_time
  step_lb : 1/2 ≤ s.adaptive_step
  step_ub : s.adaptive_step ≤ 3
  active_le : s.has_active_second = true → s.active_second ≤ ⌊s.current_time⌋
  best_sync : s.best_frame = none ↔ s.best_timestamp = none
  best_ts : ∀ t : ℚ, s.best_timestamp = some t →
    s.has_active_second = true ∧ 0 ≤ t ∧ ⌊t⌋ ≤ s.active_second
  last_lt : ∀ c : ℚ × ℕ, s.saved.getLast? = some c →
    s.has_active_second = true ∧ ⌊c.1⌋ < s.active_second
  best_gt_last : ∀ (bf : ℕ) (t : ℚ) (c : ℚ × ℕ),
    s.best_frame = some bf → s.best_timestamp = some t →
    s.saved.getLast? = some c →
    ⌊c.1⌋ < ⌊t⌋ ∨ commitBlocked env s bf = true

theorem smartInv_init (env : SmartEnv) : SmartInv env initState := by
  refine ⟨List.chain'_nil, le_refl 0, by norm_num [initState], by norm_num [initState], ?_, ?_, ?_, ?_, ?_⟩
  · intro h
    simp [initState] at h
  · simp [initState]
  · intro t ht
    simp [initState] at ht
  · intro c hc
    simp [initState] at hc
  · intro bf t c hbf
    simp [initState] at hbf

theorem min_step_lb {x : ℚ} (hx : 1/2 ≤ x) (c : ℚ) (hc : 1 ≤ c) :
    1/2 ≤ min 3 (x * c) := by
  refine le_min (by norm_num) ?_
  nlinarith

theorem commit_step_bounds (env : SmartEnv) (s : SmartState)
    (hlb : 1/2 ≤ s.adaptive_step) (hub : s.adaptive_step ≤ 3) :
    1/2 ≤ (commitBestOfSecond env s).adaptive_step ∧
      (commitBestOfSecond env s).adaptive_step ≤ 3 := by
  rcases commit_eq_or env s with h | ⟨bf, bts, _, _, _, h⟩
  · rw [h]
    exact ⟨hlb, hub⟩
  · rw [h]
    show 1/2 ≤ (if s.best_change > 35 then (1:ℚ)/2 else min 3 (s.adaptive_step * (3/2))) ∧
      (if s.best_change > 35 then (1:ℚ)/2 else min 3 (s.adaptive_step * (3/2))) ≤ 3
    split
    · exact ⟨le_refl _, by norm_num⟩
    · exact ⟨min_step_lb hlb _ (by norm_num), min_le_left _ _⟩

theorem commit_keeps_time (env : SmartEnv) (s : SmartState) :
    (commitBestOfSecond env s).current_time = s.current_time := by
  rcases commit_eq_or env s with h | ⟨bf, bts, _, _, _, h⟩ <;> rw [h]

theorem commit_keeps_active (env : SmartEnv) (s : SmartState) :
    (commitBestOfSecond env s).active_second = s.active_second ∧
      (commitBestOfSecond env s).has_active_second = s.has_active_second := by
  rcases commit_eq_or env s with h | ⟨bf, bts, _, _, _, h⟩ <;> rw [h] <;> exact ⟨rfl, rfl⟩

/-- A commit preserves the committed-floor chain (and appends a strictly
larger second when it writes). -/
theorem commit_chain (env : SmartEnv) (s : SmartState) (h : SmartInv env s) :
    List.Chain' commitOrder (commitBestOfSecond env s).saved := by
  rcases commit_eq_or env s with heq | ⟨bf, bts, hbf, hbts, hnb, heq⟩
  · rw [heq]
    exact h.saved_chain
  · rw [heq]
    show List.Chain' commitOrder (s.saved ++ [(bts, bf)])
    rw [List.chain'_append]
    refine ⟨h.saved_chain, List.chain'_singleton _, ?_⟩
    intro c hc y hy
    have hy' : y = (bts, bf) := (by simpa using hy : (bts, bf) = y).symm
    subst hy'
    rcases h.best_gt_last bf bts c hbf hbts hc with hlt | hblocked
    · exact hlt
    · rw [hnb] at hblocked
      cases hblocked

/-- Rollover update: commit (budget permitting), then adopt a strictly
larger active second that is still at most `⌊current_time⌋`. -/
theorem rollover_inv (env : SmartEnv) (mf : ℕ) (s : SmartState) (z : ℤ)
    (h : SmartInv env s) (hhas : s.has_active_second = true)
    (hz : s.active_second < z) (hzle : z ≤ ⌊s.current_time⌋) :
    SmartInv env
      { (if s.saved.length < mf then commitBestOfSecond env s else s) with
        active_second := z } := by
  by_cases hlen : s.saved.length < mf
  · rw [if_pos hlen]
    rcases commit_eq_or env s with heq | ⟨bf, bts, hbf, hbts, hnb, heq⟩
    · rw [heq]
      refine ⟨h.saved_chain, h.time_nonneg, h.step_lb, h.step_ub, fun _ => hzle,
        h.best_sync, ?_, ?_, ?_⟩
      · intro t ht
        obtain ⟨_, ht0, hta⟩ := h.best_ts t ht
        exact ⟨hhas, ht0, le_trans hta (le_of_lt hz)⟩
      · intro c hc
        obtain ⟨_, hca⟩ := h.last_lt c hc
        exact ⟨hhas, lt_trans hca hz⟩
      · intro bf t c hbf hbt hc
        exact h.best_gt_last bf t c hbf hbt hc
    · have hchain : List.Chain' commitOrder (commitBestOfSecond env s).saved :=
        commit_chain env s h
      rw [heq] at hchain ⊢
      obtain ⟨hsb1, hsb2⟩ := commit_step_bounds env s h.step_lb h.step_ub
      rw [heq] at hsb1 hsb2
      refine ⟨hchain, h.time_nonneg, hsb1, hsb2, fun _ => hzle, by simp, ?_, ?_, ?_⟩
      · intro t ht
        simp at ht
      · intro c hc
        have hc' : c = (bts, bf) :=
          (by simpa [List.getLast?_concat] using hc : (bts, bf) = c).symm
        subst hc'
        obtain ⟨_, _, hta⟩ := h.best_ts bts hbts
        exact ⟨hhas, lt_of_le_of_lt hta hz⟩
      · intro bf' t c hbf' hbt hc
        simp at hbf'
  · rw [if_neg hlen]
    refine ⟨h.saved_chain, h.time_nonneg, h.step_lb, h.step_ub, fun _ => hzle,
      h.best_sync, ?_, ?_, ?_⟩
    · intro t ht
      obtain ⟨_, ht0, hta⟩ := h.best_ts t ht
      exact ⟨hhas, ht0, le_trans hta (le_of_lt hz)⟩
    · intro c hc
      obtain ⟨_, hca⟩ := h.last_lt c hc
      exact ⟨hhas, lt_trans hca hz⟩
    · intro bf t c hbf hbt hc
      exact h.best_gt_last bf t c hbf hbt hc

theorem reportTick_inv (env : SmartEnv) (s : SmartState) (h : SmartInv env s) :
    SmartInv env (reportTick s) := by
  unfold reportTick
  split
  · exact ⟨h.saved_chain, h.time_nonneg, h.step_lb, h.step_ub, h.active_le,
      h.best_sync, h.best_ts, h.last_lt, h.best_gt_last⟩
  · exact h

theorem reportTick_keeps (s : SmartState) :
    (reportTick s).current_time = s.current_time ∧
      (reportTick s).adaptive_step = s.adaptive_step := by
  unfold reportTick
  split <;> exact ⟨rfl, rfl⟩

theorem advanceSecond_spec (env : SmartEnv) (mf : ℕ) (s : SmartState)
    (h : SmartInv env s) :
    SmartInv env (advanceSecond env mf s) ∧
      (advanceSecond env mf s).has_active_second = true ∧
      (advanceSecond env mf s).active_second = ⌊s.current_time⌋ ∧
      (advanceSecond env mf s).current_time = s.current_time ∧
      (advanceSecond env mf s).adaptive_step = s.adaptive_step ∨
    SmartInv env (advanceSecond env mf s) ∧
      (advanceSecond env mf s).has_active_second = true ∧
      (advanceSecond env mf s).active_second = ⌊s.current_time⌋ ∧
      (advanceSecond env mf s).current_time = s.current_time ∧
      1/2 ≤ (advanceSecond env mf s).adaptive_step ∧
      (advanceSecond env mf s).adaptive_step ≤ 3 := by
  unfold advanceSecond
  rw [pyInt_eq_floor h.time_nonneg]
  by_cases h1 : ¬s.has_active_second = true
  · rw [if_pos h1]
    left
    refine ⟨⟨h.saved_chain, h.time_nonneg, h.step_lb, h.step_ub, fun _ => le_refl _,
      h.best_sync, ?_, ?_, ?_⟩, rfl, rfl, rfl, rfl⟩
    · intro t ht
      obtain ⟨hhas, _, _⟩ := h.best_ts t ht
      exact absurd hhas h1
    · intro c hc
      obtain ⟨hhas, _⟩ := h.last_lt c hc
      exact absurd hhas h1
    · intro bf t c hbf hbt hc
      obtain ⟨hhas, _⟩ := h.best_ts t hbt
      exact absurd hhas h1
  · rw [if_neg h1]
    have hhas : s.has_active_second = true := by
      cases hv : s.has_active_second
      · exact absurd (by rw [hv]; exact fun hc => Bool.noConfusion hc) h1
      · rfl
    by_cases h2 : ⌊s.current_time⌋ ≠ s.active_second
    · rw [if_pos h2]
      right
      have hz : s.active_second < ⌊s.current_time⌋ :=
        lt_of_le_of_ne (h.active_le hhas) (fun hne => h2 hne.symm)
      have hinv := rollover_inv env mf s ⌊s.current_time⌋ h hhas hz (le_refl _)
      have htime :
          (if s.saved.length < mf then commitBestOfSecond env s else s).current_time
            = s.current_time := by
        split
        · exact commit_keeps_time env s
        · rfl
      have hhas' :
          (if s.saved.length < mf then commitBestOfSecond env s else s).has_active_second
            = true := by
        split
        · rw [(commit_keeps_active env s).2]
          exact hhas
        · exact hhas
      exact ⟨hinv, hhas', rfl, htime, hinv.step_lb, hinv.step_ub⟩
    · rw [if_neg h2]
      left
      have h2' : s.active_second = ⌊s.current_time⌋ := (not_ne_iff.1 h2).symm
      exact ⟨h, hhas, h2', rfl, rfl⟩

theorem sampleStep_spec (env : SmartEnv) (s : SmartState) (h : SmartInv env s)
    (hhas : s.has_active_second = true)
    (hact : s.active_second = ⌊s.current_time⌋) :
    SmartInv env (sampleStep env s) ∧
      (sampleStep env s).current_time
        = s.current_time + (sampleStep env s).adaptive_step := by
  have hstep_pos : 0 ≤ s.adaptive_step := le_trans (by norm_num) h.step_lb
  have htn : 0 ≤ s.current_time + s.adaptive_step :=
    add_nonneg h.time_nonneg hstep_pos
  have hfl : ⌊s.current_time⌋ ≤ ⌊s.current_time + s.adaptive_step⌋ :=
    Int.floor_le_floor (by linarith)
  simp only [sampleStep]
  cases hr : env.readFrame (pyInt (s.current_time * env.fps)) with
  | none =>
    refine ⟨⟨h.saved_chain, htn, h.step_lb, h.step_ub, fun _ => ?_, h.best_sync,
      h.best_ts, h.last_lt, h.best_gt_last⟩, rfl⟩
    exact le_trans (h.active_le hhas) hfl
  | some frame =>
    dsimp only
    by_cases hd : env.isDark frame = true
    · rw [if_pos hd]
      refine ⟨⟨h.saved_chain, htn, h.step_lb, h.step_ub, fun _ => ?_, h.best_sync,
        h.best_ts, h.last_lt, h.best_gt_last⟩, rfl⟩
      exact le_trans (h.active_le hhas) hfl
    · rw [if_neg hd]
      -- candidate update
      have hs1 :
          SmartInv env
            (if (env.score frame s.last_saved_frame).1 > s.best_score then
              { s with best_frame := some frame, best_timestamp := some s.current_time,
                       best_score := (env.score frame s.last_saved_frame).1,
                       best_quality := (env.score frame s.last_saved_frame).2.1,
                       best_change := (env.score frame s.last_saved_frame).2.2 }
            else s) := by
        split
        · refine ⟨h.saved_chain, h.time_nonneg, h.step_lb, h.step_ub,
            fun _ => h.active_le hhas, by simp, ?_, ?_, ?_⟩
          · intro t ht
            have ht' : t = s.current_time := (by simpa using ht : s.current_time = t).symm
            subst ht'
            exact ⟨hhas, h.time_nonneg, le_of_eq hact.symm⟩
          · exact h.last_lt
          · intro bf t c hbf hbt hc
            have ht' : t = s.current_time := (by simpa using hbt : s.current_time = t).symm
            subst ht'
            obtain ⟨_, hclt⟩ := h.last_lt c hc
            exact Or.inl (by rw [← hact]; exact hclt)
        · exact h
      set s1 := (if (env.score frame s.last_saved_frame).1 > s.best_score then
        { s with best_frame := some frame, best_timestamp := some s.current_time,
                 best_score := (env.score frame s.last_saved_frame).1,
                 best_quality := (env.score frame s.last_saved_frame).2.1,
                 best_change := (env.score frame s.last_saved_frame).2.2 }
        else s) with hs1def
      have hs1time : s1.current_time = s.current_time := by
        rw [hs1def]
        split <;> rfl
      have hs1active : s1.active_second = s.active_second := by
        rw [hs1def]
        split <;> rfl
      have hs1has : s1.has_active_second = true := by
        rw [hs1def]
        split <;> exact hhas
      have hs1step : s1.adaptive_step = s.adaptive_step := by
        rw [hs1def]
        split <;> rfl
      -- step update
      have hs2 :
          SmartInv env
            (if (env.score frame s.last_saved_frame).2.2 > 35 then
              { s1 with adaptive_step := 1/2 }
            else { s1 with adaptive_step := min 3 (s1.adaptive_step * (6/5)) }) := by
        split
        · exact ⟨hs1.saved_chain, hs1.time_nonneg, le_refl _, by norm_num,
            hs1.active_le, hs1.best_sync, hs1.best_ts, hs1.last_lt, hs1.best_gt_last⟩
        · refine ⟨hs1.saved_chain, hs1.time_nonneg,
            min_step_lb hs1.step_lb _ (by norm_num), min_le_left _ _,
            hs1.active_le, hs1.best_sync, hs1.best_ts, hs1.last_lt, hs1.best_gt_last⟩
      set s2 := (if (env.score frame s.last_saved_frame).2.2 > 35 then
        { s1 with adaptive_step := 1/2 }
        else { s1 with adaptive_step := min 3 (s1.adaptive_step * (6/5)) }) with hs2def
      have hs2time : s2.current_time = s.current_time := by
        rw [hs2def]
        split <;> exact hs1time
      have hs2active : s2.active_second = s.active_second := by
        rw [hs2def]
        split <;> exact hs1active
      have hs2has : s2.has_active_second = true := by
        rw [hs2def]
        split <;> exact hs1has
      have hstep2_pos : 0 ≤ s2.adaptive_step := le_trans (by norm_num) hs2.step_lb
      refine ⟨⟨hs2.saved_chain, ?_, hs2.step_lb, hs2.step_ub, fun _ => ?_,
        hs2.best_sync, hs2.best_ts, hs2.last_lt, hs2.best_gt_last⟩, ?_⟩
      · show 0 ≤ s2.current_time + s2.adaptive_step
        rw [hs2time]
        exact add_nonneg h.time_nonneg hstep2_pos
      · show s2.active_second ≤ ⌊s2.current_time + s2.adaptive_step⌋
        rw [hs2active, hs2time, hact]
        exact Int.floor_le_floor (by linarith)
      · show s2.current_time + s2.adaptive_step = s.current_time + s2.adaptive_step
        rw [hs2time]

theorem loopBody_spec (env : SmartEnv) (mf : ℕ) (s : SmartState)
    (h : SmartInv env s) :
    SmartInv env (loopBody env mf s) ∧
      (loopBody env mf s).current_time
        = (reportTick s).current_time + (loopBody env mf s).adaptive_step := by
  unfold loopBody
  have hrt := reportTick_inv env s h
  have hadv := advanceSecond_spec env mf (reportTick s) hrt
  rcases hadv with ⟨hinv, hh, ha, ht, _⟩ | ⟨hinv, hh, ha, ht, _, _⟩ <;>
  · have hsmp := sampleStep_spec env (advanceSecond env mf (reportTick s)) hinv hh
      (by rw [ha, ht])
    exact ⟨hsmp.1, by rw [hsmp.2, ht]⟩

theorem runSmart_inv (env : SmartEnv) (mf : ℕ) :
    ∀ (fuel : ℕ) (s : SmartState), SmartInv env s →
      SmartInv env (runSmart env mf fuel s) := by
  intro fuel
  induction fuel with
  | zero => exact fun s h => h
  | succ fuel ih =>
    intro s h
    unfold runSmart
    split
    · exact ih _ (loopBody_spec env mf s h).1
    · exact h

/-- Transfer strict floor ordering to strict timestamp ordering. -/
theorem commitOrder_ts_lt {a b : ℚ × ℕ} (h : commitOrder a b) : a.1 < b.1 := by
  by_contra hle
  exact absurd (Int.floor_le_floor (le_of_not_lt hle)) (not_le.2 h)

theorem contentDrivenExtract_pairwise (env : SmartEnv) (mf fuel : ℕ) :
    List.Pairwise (fun a b : ℚ × ℕ => a.1 < b.1 ∧ ⌊a.1⌋ < ⌊b.1⌋)
      (contentDrivenExtract env mf fuel) := by
  have hinv := runSmart_inv env mf fuel initState (smartInv_init env)
  have hchain : List.Chain' commitOrder (contentDrivenExtract env mf fuel) := by
    simp only [contentDrivenExtract]
    split
    · exact commit_chain env _ hinv
    · exact hinv.saved_chain
  have hpw : List.Pairwise commitOrder (contentDrivenExtract env mf fuel) :=
    List.chain'_iff_pairwise.1 hchain
  exact hpw.imp (fun h => ⟨commitOrder_ts_lt h, h⟩)

/-- C1: every smart-mode extraction returns keyframes whose timestamps are
strictly increasing and whose integer-second floors are strictly increasing
— hence no two commits share an integer second, i.e. at most one frame is
committed per integer second of video time.  This holds for every
environment (video content, kernel behaviour), frame budget and fuel. -/
theorem c1_smart_commits_strictly_ordered (env : SmartEnv) (mf : ℕ)
    (ti : Option ℚ) (fuel : ℕ) :
    List.Pairwise (fun a b : ℚ × ℕ => a.1 < b.1 ∧ ⌊a.1⌋ < ⌊b.1⌋)
      (extract_keyframes env mf .smart ti fuel) := by
  unfold extract_keyframes extractKeyframesTry
  by_cases h1 : env.isOpened = false
  · rw [if_pos h1]
    exact List.Pairwise.nil
  · rw [if_neg h1]
    by_cases h2 : env.fps = 0
    · rw [if_pos h2]
      exact List.Pairwise.nil
    · rw [if_neg h2]
      exact contentDrivenExtract_pairwise env mf fuel

/-- C9: starting from the initial state (step `0.5`), after any number of
iterations the adaptive step lies in `[0.5, 3]`, and the next iteration
advances `current_time` by exactly its (just updated) adaptive step — so
every sampled time advance is at least `MIN_INTERVAL = 0.5` seconds and at
most `MAX_INTERVAL = 3` seconds.  The final residual commit also keeps the
step inside the interval. -/
theorem c9_adaptive_step_bounded (env : SmartEnv) (mf fuel : ℕ) :
    (1/2 ≤ (runSmart env mf fuel initState).adaptive_step ∧
      (runSmart env mf fuel initState).adaptive_step ≤ 3) ∧
    ((loopBody env mf (runSmart env mf fuel initState)).current_time
        = (runSmart env mf fuel initState).current_time
          + (loopBody env mf (runSmart env mf fuel initState)).adaptive_step ∧
      1/2 ≤ (loopBody env mf (runSmart env mf fuel initState)).adaptive_step ∧
      (loopBody env mf (runSmart env mf fuel initState)).adaptive_step ≤ 3) ∧
    (1/2 ≤ (commitBestOfSecond env (runSmart env mf fuel initState)).adaptive_step ∧
      (commitBestOfSecond env (runSmart env mf fuel initState)).adaptive_step ≤ 3) := by
  have hinv := runSmart_inv env mf fuel initState (smartInv_init env)
  obtain ⟨hbody, htime⟩ := loopBody_spec env mf _ hinv
  have hrt : (reportTick (runSmart env mf fuel initState)).current_time
      = (runSmart env mf fuel initState).current_time :=
    (reportTick_keeps _).1
  obtain ⟨hc1, hc2⟩ := commit_step_bounds env _ hinv.step_lb hinv.step_ub
  exact ⟨⟨hinv.step_lb, hinv.step_ub⟩,
    ⟨by rw [htime, hrt], hbody.step_lb, hbody.step_ub⟩, hc1, hc2⟩

/-! ### Claim C2: the commit-time similarity filter and the candidate buffer -/

/-- C2 (amended): when the best-of-second candidate is similar (threshold
0.8) to the previously committed frame, `commit_best_of_second` is the
identity on the whole state — the candidate is not written, `last_saved_*`
are not updated, the adaptive step is untouched, and (because the early
`return` precedes the buffer reset) the candidate buffer is *not* cleared:
the dropped candidate survives into the next active second. -/
theorem c2_blocked_commit_is_identity (env : SmartEnv) (s : SmartState)
    (bf : ℕ) (bts : ℚ) (hbf : s.best_frame = some bf)
    (hbts : s.best_timestamp = some bts)
    (hb : commitBlocked env s bf = true) :
    commitBestOfSecond env s = s := by
  simp only [commitBestOfSecond, hbf, hbts, if_pos hb]

/-- Environment realizing a similarity-filtered commit: one-fps video, frame
0 readable in second 0 and frame 1 in second 1, all frames bright, constant
scores with weak change, and a similarity scalar of 0.9 (above the commit
threshold 0.8). -/
def c2Env : SmartEnv :=
  { isOpened := true, total_frames := 10, fps := 1,
    readFrame := fun i => if i = 0 then some 0 else if i = 1 then some 1 else none,
    isDark := fun _ => false,
    score := fun _ _ => (10, 10, 0),
    grayOf := fun f => .ok f,
    simRaw := fun _ _ => .ok (9/10) }

theorem c2_blocked_commit_witness : commitBestOfSecond c2Env
    { initState with best_frame := some 1, best_timestamp := some 1,
                     last_saved_frame := some 0 }
    = { initState with best_frame := some 1, best_timestamp := some 1,
                       last_saved_frame := some 0 } :=
  c2_blocked_commit_is_identity c2Env _ 1 1 rfl rfl
    (by norm_num [commitBlocked, checkFrameSimilarity, c2Env, initState])

/-- C2 (counterexample to the claim as stated): in the run over `c2Env`,
frame 0 is committed for second 0 at iteration 3; at iteration 4 the active
second rolls over from 1 to 2 and the second-1 candidate (frame 1, sampled
at `t = 1.32`) is dropped by the similarity filter — but after that rollover
commit the candidate buffer still holds it (`best_frame = some 1`,
`best_timestamp = some 1.32`), so the per-second candidate state does *not*
return to EMPTY: the dropped candidate survives into active second 2. -/
theorem c2_counterexample :
    (runSmart c2Env 100 3 initState).saved = [(0, 0)] ∧
      (runSmart c2Env 100 3 initState).active_second = 1 ∧
      (runSmart c2Env 100 3 initState).best_frame = some 1 ∧
      (runSmart c2Env 100 3 initState).best_timestamp = some (33/25) ∧
      (runSmart c2Env 100 4 initState).active_second = 2 ∧
      (runSmart c2Env 100 4 initState).saved = [(0, 0)] ∧
      (runSmart c2Env 100 4 initState).best_frame = some 1 ∧
      (runSmart c2Env 100 4 initState).best_timestamp = some (33/25) := by
  norm_num [runSmart, loopBody, sampleStep, advanceSecond, reportTick,
    commitBestOfSecond, commitBlocked, checkFrameSimilarity, initState,
    envDuration, c2Env, pyInt]

/-! ### Claim C4: the retry ladder is dead code -/

/-- Environment for the failing input of C4: the capture opens, reports
`fps = 0` (broken metadata) with 3 readable frames.  The `try` body of
`extract_keyframes` then raises `ZeroDivisionError` at
`duration = total_frames / fps` for *every* method. -/
def c4Env : SmartEnv :=
  { isOpened := true, total_frames := 3, fps := 0,
    readFrame := fun i =>
      if i = 0 then some 0 else if i = 1 then some 1 else if i = 2 then some 2 else none,
    isDark := fun _ => false,
    score := fun _ _ => (0, 0, 0),
    grayOf := fun f => .ok f,
    simRaw := fun _ _ => .ok 0 }

/-- C4: the retry ladder never advances.  `extract_keyframes` absorbs every
exception internally and returns `[]`, so `extract_keyframes_with_fallback`
always returns the plain smart call's result (first conjunct, for every
input).  At the failing input `c4Env` the smart `try` body raises
(`ZeroDivisionError`), the interval `try` body would raise too, and
`_extract_minimal_keyframes` would return three frames — the claim's
predicted final result — but the fallback wrapper returns `[]`: the
interval and minimal rungs never run. -/
theorem c4_retry_ladder_dead :
    (∀ (env : SmartEnv) (mf : ℕ) (ti : Option ℚ) (fuel : ℕ),
      extract_keyframes_with_fallback env mf ti fuel
        = extract_keyframes env mf .smart ti fuel) ∧
      extractKeyframesTry c4Env 5 .smart none 100 = .error .zeroDivision ∧
      extractKeyframesTry c4Env 5 .interval none 100 = .error .zeroDivision ∧
      extract_keyframes_with_fallback c4Env 5 none 100 = [] ∧
      minimalExtract c4Env 5 = [(0, 0), (1, 1), (2, 2)] := by
  refine ⟨fun env mf ti fuel => rfl, ?_, ?_, ?_, ?_⟩
  · simp [extractKeyframesTry, c4Env]
  · simp [extractKeyframesTry, c4Env]
  · show extract_keyframes c4Env 5 .smart none 100 = []
    simp [extract_keyframes, extractKeyframesTry, c4Env]
  · have hidx : minimalIndices 3 5 = [0, 1, 2] := by decide
    simp only [minimalExtract, c4Env, hidx]
    norm_num

/-! ### Claim C5: degenerate metadata produces an empty result -/

theorem runSmart_zero_duration (env : SmartEnv) (mf : ℕ)
    (hdur : envDuration env = 0) :
    ∀ fuel, runSmart env mf fuel initState = initState := by
  intro fuel
  cases fuel with
  | zero => rfl
  | succ fuel =>
    unfold runSmart
    rw [if_neg]
    rintro ⟨hlt, _⟩
    rw [hdur] at hlt
    exact absurd hlt (by norm_num [initState])

/-- C5: when the video metadata reports `fps = 0`, or reports
`total_frames = 0` over a reader that (being empty) cannot produce any
frame, both entry points — `extract_keyframes` in every mode and
`extract_keyframes_with_fallback` — return the empty list, and no exception
escapes (the internal handler converts the `fps = 0` `ZeroDivisionError`
into `[]`). -/
theorem c5_degenerate_metadata_empty (env : SmartEnv) (mf : ℕ) (m : Method)
    (ti : Option ℚ) (fuel : ℕ)
    (h : env.fps = 0 ∨
      (env.total_frames = 0 ∧ ∀ i : ℤ, env.readFrame i = none)) :
    extract_keyframes env mf m ti fuel = [] ∧
      extract_keyframes_with_fallback env mf ti fuel = [] := by
  have hmain : ∀ m' : Method, extract_keyframes env mf m' ti fuel = [] := by
    intro m'
    unfold extract_keyframes extractKeyframesTry
    by_cases h1 : env.isOpened = false
    · rw [if_pos h1]
    · rw [if_neg h1]
      by_cases h2 : env.fps = 0
      · rw [if_pos h2]
      · rw [if_neg h2]
        rcases h with h | ⟨hT, hread⟩
        · exact absurd h h2
        · have hdur : envDuration env = 0 := by
            unfold envDuration
            rw [hT]
            split <;> simp
          cases m' with
          | smart =>
            show contentDrivenExtract env mf fuel = []
            unfold contentDrivenExtract
            rw [runSmart_zero_duration env mf hdur fuel]
            have hcommit : commitBestOfSecond env initState = initState := by
              simp [commitBestOfSecond, initState]
            show (if initState.saved.length < mf then
              commitBestOfSecond env initState else initState).saved = []
            split
            · rw [hcommit]
              rfl
            · rfl
          | uniform =>
            by_cases h3 : mf = 0
            · rw [if_pos h3]
            · rw [if_neg h3]
              show uniformGo env env.total_frames
                (max 1 (env.total_frames / mf)) mf 0 = []
              cases mf with
              | zero => rfl
              | succ n =>
                simp [uniformGo, hT]
          | interval =>
            show intervalGo env _ mf 0 = []
            cases mf with
            | zero => rfl
            | succ n =>
              simp [intervalGo, hread 0]
  exact ⟨hmain m, hmain .smart⟩

/-- Degenerate environment: opens, but reports no frames and zero fps. -/
def c5Env : SmartEnv :=
  { isOpened := true, total_frames := 0, fps := 0,
    readFrame := fun _ => none, isDark := fun _ => false,
    score := fun _ _ => (0, 0, 0), grayOf := fun f => .ok f,
    simRaw := fun _ _ => .ok 0 }

theorem c5_degenerate_metadata_witness :
    extract_keyframes c5Env 10 .smart none 50 = [] ∧
      extract_keyframes_with_fallback c5Env 10 none 50 = [] :=
  c5_degenerate_metadata_empty c5Env 10 .smart none 50 (Or.inl rfl)

/-! ### Claim C10: the duplicate filter fails open -/

/-- C10: `_check_frame_similarity` returns `false` whenever its internal
computation raises, and the commit-time similarity check is wrapped so that
on any error — in the gray conversion of either frame or in the similarity
computation itself — the candidate is committed anyway.  An internal error
in the similarity machinery can never block a commit. -/
theorem c10_similarity_fails_open (env : SmartEnv) (s : SmartState)
    (bf : ℕ) (bts : ℚ) (lf : ℕ)
    (hbf : s.best_frame = some bf) (hbts : s.best_timestamp = some bts)
    (hlf : s.last_saved_frame = some lf) :
    (∀ (g1 g2 : ℕ) (thr : ℚ), env.simRaw g1 g2 = .error () →
      checkFrameSimilarity env g1 g2 thr = false) ∧
    ((env.grayOf bf = .error () ∨ env.grayOf lf = .error () ∨
        ∀ cg lg : ℕ, env.grayOf bf = .ok cg → env.grayOf lf = .ok lg →
          env.simRaw lg cg = .error ()) →
      (commitBestOfSecond env s).saved = s.saved ++ [(bts, bf)]) := by
  constructor
  · intro g1 g2 thr herr
    unfold checkFrameSimilarity
    rw [herr]
  · intro herr
    have hblocked : commitBlocked env s bf = false := by
      rcases hg1 : env.grayOf bf with e1 | cg
      · simp [commitBlocked, hlf, hg1]
      · rcases hg2 : env.grayOf lf with e2 | lg
        · simp [commitBlocked, hlf, hg1, hg2]
        · rcases herr with herr | herr | herr
          · rw [hg1] at herr
            cases herr
          · rw [hg2] at herr
            cases herr
          · simp only [commitBlocked, hlf, hg1, hg2]
            unfold checkFrameSimilarity
            rw [herr cg lg hg1 hg2]
    simp [commitBestOfSecond, hbf, hbts, hblocked]

/-- Environment whose similarity computation always raises. -/
def c10Env : SmartEnv :=
  { isOpened := true, total_frames := 10, fps := 1,
    readFrame := fun _ => none, isDark := fun _ => false,
    score := fun _ _ => (0, 0, 0), grayOf := fun f => .ok f,
    simRaw := fun _ _ => .error () }

theorem c10_similarity_fails_open_witness :
    checkFrameSimilarity c10Env 0 1 (4/5) = false ∧
      (commitBestOfSecond c10Env
        { initState with best_frame := some 1, best_timestamp := some 3,
                         last_saved_frame := some 0 }).saved = [((3 : ℚ), 1)] := by
  obtain ⟨h1, h2⟩ := c10_similarity_fails_open c10Env
    { initState with best_frame := some 1, best_timestamp := some 3,
                     last_saved_frame := some 0 } 1 3 0 rfl rfl rfl
  refine ⟨h1 0 1 (4/5) rfl, ?_⟩
  rw [h2 (Or.inr (Or.inr (fun cg lg _ _ => rfl)))]
  rfl

/-- C8: minimal (last-resort) mode selects exactly the anchor set described
by the specification — `0` for `max_frames ≥ 1`, plus `total_frames − 1` for
`≥ 2`, plus `total_frames // 2` for `≥ 3`, plus the stride multiples
`i · (total_frames // max_frames)` for `i ∈ range(1, max_frames − 2)` —
then deduplicates, sorts and truncates to `max_frames`; in particular with
`total_frames = 100` and `max_frames = 5` the selected indices are
`[0, 20, 40, 50, 99]`. -/
theorem c8_minimal_anchor_selection :
    minimalIndices 100 5 = [0, 20, 40, 50, 99] ∧
      ∀ T mf : ℕ, minimalIndices T mf = specMinimalIndices T mf :=
  ⟨by decide, minimalIndices_eq_spec⟩

end KeyframeExtractor
